import Mathlib

set_option autoImplicit false

/-
  Verification development for the CyberX ingestion / deduplication /
  staged-storage pipeline.

  Each namespace below is a shallow embedding of one Python module of the
  repository:

  * `CyberX.UrlTracker`  — src/backend/src/utils/url_tracker.py
  * `CyberX.Monitor`     — src/backend/src/monitoring/news_monitor_24x7.py
  * `CyberX.Scraper`     — src/backend/src/scrapers/crawl4ai_scraper.py
  * `CyberX.Backup`      — src/backend/src/utils/backup_manager.py and
                           src/backend/automation/cleanup_service.py
  * `CyberX.Cache`       — src/backend/api/cybersecurity_fastapi.py

  File I/O is modelled by explicit state passing; wall-clock timestamp strings
  that are written but never read back (e.g. `scraped_at`, `last_updated`)
  are omitted from the embedded records.  Unless a function takes an explicit
  success flag, disk operations are modelled as succeeding (the deterministic,
  fault-free execution of the Python code).
-/

namespace CyberX

/- ==================================================================
   Dedup Tracker — src/backend/src/utils/url_tracker.py (class URLTracker)
   ================================================================== -/
namespace UrlTracker

/-- An article dict as seen by the tracker: only `url` and `domain` are read
(`article.get('url', '')`, `article.get('domain', '')`). -/
structure Article where
  url : String
  domain : String
  deriving DecidableEq, Repr

/-- The `url_scraped.txt` ledger, reduced to what the tracker ever reads back:
the URL field (`parts[0]`) of each data line, in file order.  The date and
domain fields of a line are written by `add_scraped_url` but never read by
`_load_urls_from_file`, which only collects `parts[0]`. -/
abbrev Ledger := List String

/-- `URLTracker.get_scraped_urls` / `_load_urls_from_file`: the set of URLs on
data lines of the ledger (membership is what Python's `set` provides). -/
def get_scraped_urls (l : Ledger) : List String := l

/-- `URLTracker.is_url_scraped`. -/
def is_url_scraped (l : Ledger) (url : String) : Bool :=
  (get_scraped_urls l).contains url

/-- `URLTracker.add_scraped_url`: if the URL is already scraped, return True
without touching the file ("Already exists, no need to add"); otherwise append
a `url|date|domain` line and return True.  The returned Bool is the Python
return value (False only on an I/O exception, which the fault-free model
excludes). -/
def add_scraped_url (l : Ledger) (url : String) : Ledger × Bool :=
  if is_url_scraped l url then (l, true)
  else (l ++ [url], true)

/-- `URLTracker.filter_new_articles`: keep an article iff
`article_url and article_url not in scraped_urls` — i.e. the URL is non-empty
(Python truthiness of the string) and not already scraped. -/
def filter_new_articles (l : Ledger) : List Article → List Article
  | [] => []
  | a :: rest =>
      if a.url != "" && !((get_scraped_urls l).contains a.url) then
        a :: filter_new_articles l rest
      else
        filter_new_articles l rest

/-- One iteration of the `bulk_add_scraped_urls` loop:
`if url and self.add_scraped_url(url, domain): added_count += 1`
(Python's `and` short-circuits, so the add only runs for a non-empty URL). -/
def bulkStep (acc : Ledger × Nat) (a : Article) : Ledger × Nat :=
  if a.url != "" then
    let r := add_scraped_url acc.1 a.url
    if r.2 then (r.1, acc.2 + 1) else (r.1, acc.2)
  else acc

/-- `URLTracker.bulk_add_scraped_urls`. -/
def bulk_add_scraped_urls (l : Ledger) (articles : List Article) : Ledger × Nat :=
  articles.foldl bulkStep (l, 0)

/-- `filterNew` as the spec words it (for comparison with the code's
`filter_new_articles`): exactly the sublist of items whose URL is absent from
the ledger, in input order. -/
def filterNewSpec (l : Ledger) (articles : List Article) : List Article :=
  articles.filter (fun a => !((get_scraped_urls l).contains a.url))

theorem add_scraped_url_snd (l : Ledger) (u : String) :
    (add_scraped_url l u).2 = true := by
  unfold add_scraped_url
  by_cases hs : is_url_scraped l u = true <;> simp [hs]

theorem bulkStep_snd (acc : Ledger × Nat) (a : Article) :
    (bulkStep acc a).2 = if a.url != "" then acc.2 + 1 else acc.2 := by
  cases h : (a.url != "") with
  | true => simp [bulkStep, h, add_scraped_url_snd]
  | false => simp [bulkStep, h]

theorem filter_new_articles_eq_filter (l : Ledger) (items : List Article) :
    filter_new_articles l items
      = items.filter (fun a => a.url != "" && !((get_scraped_urls l).contains a.url)) := by
  induction items with
  | nil => rfl
  | cons a rest ih =>
      cases h : (a.url != "" && !((get_scraped_urls l).contains a.url)) with
      | true =>
          rw [show filter_new_articles l (a :: rest)
                = a :: filter_new_articles l rest from if_pos h,
              List.filter_cons_of_pos (by simpa using h), ih]
      | false =>
          rw [show filter_new_articles l (a :: rest)
                = filter_new_articles l rest from
                if_neg (by rw [h]; exact Bool.false_ne_true),
              List.filter_cons_of_neg (by simp only [h]; decide), ih]

theorem bulk_add_count_aux (items : List Article) (l : Ledger) (n : Nat) :
    (items.foldl bulkStep (l, n)).2
      = n + (items.filter (fun a => a.url != "")).length := by
  induction items generalizing l n with
  | nil => simp
  | cons a rest ih =>
      rw [List.foldl_cons]
      cases h : (a.url != "") with
      | true =>
          have h2 : (bulkStep (l, n) a).2 = n + 1 := by rw [bulkStep_snd]; simp [h]
          rw [List.filter_cons_of_pos (by simpa using h)]
          have hfold := ih (bulkStep (l, n) a).1 (bulkStep (l, n) a).2
          rw [Prod.mk.eta] at hfold
          rw [hfold, h2]
          simp [Nat.add_comm, Nat.add_assoc, Nat.add_left_comm]
      | false =>
          have h2 : (bulkStep (l, n) a) = (l, n) := by simp [bulkStep, h]
          rw [List.filter_cons_of_neg (by simp [h]), h2, ih]

/-- C4 counterexample input: an article whose `url` field is the empty string. -/
def emptyUrlArticle : Article := ⟨"", "example.com"⟩

end UrlTracker

end CyberX

namespace CyberX
namespace UrlTracker

/-- C4: `filter_new_articles` is NOT "exactly the sublist of items whose URL is
absent from the ledger": on an empty ledger and a single item with an empty
URL, the code drops the item (empty string is falsy in Python) although its
URL is absent from the ledger. -/
theorem C4_filterNew_counterexample :
    filter_new_articles [] [emptyUrlArticle] ≠ filterNewSpec [] [emptyUrlArticle] := by
  decide

/-- C4 (amended): `filter_new_articles` returns exactly the sublist of items
whose URL is non-empty and absent from the ledger, preserving input order; and
after `add_scraped_url l u`, `is_url_scraped` reports the URL as present and a
subsequent `filter_new_articles` on `[u]` returns the empty list. -/
theorem C4_filterNew_amended (l : Ledger) (items : List Article) (u d : String) :
    filter_new_articles l items
      = items.filter (fun a => a.url != "" && !((get_scraped_urls l).contains a.url))
    ∧ is_url_scraped (add_scraped_url l u).1 u = true
    ∧ filter_new_articles (add_scraped_url l u).1 [⟨u, d⟩] = [] := by
  have hmem : is_url_scraped (add_scraped_url l u).1 u = true := by
    unfold add_scraped_url
    by_cases hs : is_url_scraped l u = true
    · rw [if_pos hs]; exact hs
    · rw [if_neg hs]
      simp [is_url_scraped, get_scraped_urls]
  refine ⟨filter_new_articles_eq_filter l items, hmem, ?_⟩
  have hc : (get_scraped_urls (add_scraped_url l u).1).contains u = true := hmem
  have hcond : (u != ""
      && !((get_scraped_urls (add_scraped_url l u).1).contains u)) = false := by
    rw [hc]; simp
  have hsing : filter_new_articles (add_scraped_url l u).1 [⟨u, d⟩]
      = if (u != "" && !((get_scraped_urls (add_scraped_url l u).1).contains u))
        then [(⟨u, d⟩ : Article)] else [] := rfl
  rw [hsing, hcond]
  rfl

/-- C5 counterexample: with `"u"` already in the ledger, `add_scraped_url`
still returns `true` (it reports success, not newly-added status), and
`bulk_add_scraped_urls` on a list whose only URL is already tracked returns 1,
not 0. -/
theorem C5_returnValue_counterexample :
    (add_scraped_url ["u"] "u").2 = true
    ∧ (bulk_add_scraped_urls ["u"] [⟨"u", "d"⟩]).2 ≠ 0 := by
  constructor
  · decide
  · decide

/-- C5 (amended): `add_scraped_url` is idempotent but its return value reports
success, not newly-added status — for an already-tracked URL it returns `true`
and leaves the ledger unchanged; `bulk_add_scraped_urls` returns the number of
items with a non-empty URL (each per-item add returns `true`), so bulk-adding
a list of already-tracked URLs returns the list's (non-empty-URL) length, not
0. -/
theorem C5_returnValue_amended (l : Ledger) (u : String) (items : List Article) :
    (is_url_scraped l u = true → add_scraped_url l u = (l, true))
    ∧ (add_scraped_url l u).2 = true
    ∧ (bulk_add_scraped_urls l items).2 = (items.filter (fun a => a.url != "")).length := by
  refine ⟨fun hs => ?_, add_scraped_url_snd l u, ?_⟩
  · simp [add_scraped_url, hs]
  · unfold bulk_add_scraped_urls
    rw [bulk_add_count_aux items l 0]
    exact Nat.zero_add _

/-- Witness for `C5_returnValue_amended` at a concrete ledger and URL. -/
theorem C5_returnValue_amended_witness :
    add_scraped_url ["u"] "u" = (["u"], true) :=
  (C5_returnValue_amended ["u"] "u" []).1 (by decide)

end UrlTracker

/- ==================================================================
   Live Buffer → Daily Archive merge —
   src/backend/src/monitoring/news_monitor_24x7.py, append_to_daily_archive
   ================================================================== -/
namespace Monitor

/-- An article dict flowing through the merge.  The merge copies the dicts
verbatim; only the URL matters for "duplicate entries keyed by URL". -/
structure Article where
  url : String
  deriving DecidableEq, Repr

/-- One value of the `new_articles` argument: `{website_name, articles}`. -/
structure SiteNew where
  website_name : String
  articles : List Article
  deriving DecidableEq, Repr

/-- One per-source collection in the archive's `results` dict; the
`scraped_at` / `first_seen` timestamp strings are omitted. -/
structure SiteEntry where
  website_name : String
  articles : List Article
  articles_found : Nat
  deriving DecidableEq, Repr

/-- The archive's `results` dict: insertion-ordered, unique string keys. -/
abbrev Results := List (String × SiteEntry)

/-- The daily-archive document (`scraping_info` totals + `results`);
`timestamp` is omitted. -/
structure Archive where
  results : Results
  total_articles : Nat
  successful_sites : Nat
  total_sites : Nat
  deriving DecidableEq, Repr

/-- `site_url in archive_data['results']`. -/
def hasKey (rs : Results) (k : String) : Bool :=
  rs.any (fun p => p.1 == k)

/-- In-place update of the entry under key `k` (Python dict assignment; keys
are unique, so updating the first occurrence is the dict semantics). -/
def modifyFirst (k : String) (f : SiteEntry → SiteEntry) : Results → Results
  | [] => []
  | (k', v) :: rest =>
      if k' == k then (k', f v) :: rest
      else (k', v) :: modifyFirst k f rest

/-- One iteration of the `for site_url, site_new_data in new_articles.items()`
loop of `append_to_daily_archive`: create the entry if absent, then extend its
article list and set `articles_found` to the new length. -/
def appendSite (rs : Results) (site_url : String) (nd : SiteNew) : Results :=
  let rs1 := if hasKey rs site_url then rs
             else rs ++ [(site_url, ⟨nd.website_name, [], 0⟩)]
  modifyFirst site_url
    (fun e =>
      let arts := e.articles ++ nd.articles
      ⟨e.website_name, arts, arts.length⟩) rs1

/-- `sum(len(site_data.get('articles', [])) for site_data in results.values())`. -/
def sumArticles (rs : Results) : Nat :=
  (rs.map (fun p => p.2.articles.length)).sum

/-- `len([site for site in results.values() if site.get('articles')])`. -/
def successfulSites (rs : Results) : Nat :=
  (rs.filter (fun p => !p.2.articles.isEmpty)).length

/-- `NewsMonitor24x7.append_to_daily_archive`: fold every buffer site into the
archive's `results`, then recompute `total_articles`, `successful_sites` and
`total_sites`. -/
def append_to_daily_archive (arch : Archive) (new_articles : List (String × SiteNew)) :
    Archive :=
  let rs := new_articles.foldl (fun acc p => appendSite acc p.1 p.2) arch.results
  { results := rs
    total_articles := sumArticles rs
    successful_sites := successfulSites rs
    total_sites := rs.length }

/-- Number of Articles held in the Live-Buffer content being merged. -/
def bufferCount (new_articles : List (String × SiteNew)) : Nat :=
  (new_articles.map (fun p => p.2.articles.length)).sum

theorem sumArticles_modifyFirst (k : String) (nd : SiteNew) (rs : Results)
    (h : hasKey rs k = true) :
    sumArticles (modifyFirst k
      (fun e =>
        let arts := e.articles ++ nd.articles
        ⟨e.website_name, arts, arts.length⟩) rs)
      = sumArticles rs + nd.articles.length := by
  induction rs with
  | nil => simp [hasKey] at h
  | cons p rest ih =>
      obtain ⟨k', v⟩ := p
      cases hk : (k' == k) with
      | true =>
          simp [modifyFirst, hk, sumArticles, Nat.add_comm, Nat.add_assoc,
            Nat.add_left_comm]
      | false =>
          have hrest : hasKey rest k = true := by
            simpa [hasKey, hk] using h
          simp only [modifyFirst, hk, Bool.false_eq_true, if_false, sumArticles,
            List.map_cons, List.sum_cons]
          rw [show ((rest.map (fun p => p.2.articles.length)).sum : Nat)
                = sumArticles rest from rfl]
          rw [show (((modifyFirst k (fun e =>
                let arts := e.articles ++ nd.articles
                (⟨e.website_name, arts, arts.length⟩ : SiteEntry)) rest).map
                  (fun p => p.2.articles.length)).sum : Nat)
                = sumArticles (modifyFirst k (fun e =>
                    let arts := e.articles ++ nd.articles
                    (⟨e.website_name, arts, arts.length⟩ : SiteEntry)) rest) from rfl]
          rw [ih hrest]
          omega

theorem sumArticles_appendSite (rs : Results) (site_url : String) (nd : SiteNew) :
    sumArticles (appendSite rs site_url nd) = sumArticles rs + nd.articles.length := by
  unfold appendSite
  cases hk : hasKey rs site_url with
  | true =>
      simp only [hk, if_true]
      exact sumArticles_modifyFirst site_url nd rs hk
  | false =>
      simp only [hk, Bool.false_eq_true, if_false]
      have hk1 : hasKey (rs ++ [(site_url, (⟨nd.website_name, [], 0⟩ : SiteEntry))])
          site_url = true := by
        simp [hasKey]
      rw [sumArticles_modifyFirst site_url nd _ hk1]
      simp [sumArticles]

theorem sumArticles_fold (new_articles : List (String × SiteNew)) (rs : Results) :
    sumArticles (new_articles.foldl (fun acc p => appendSite acc p.1 p.2) rs)
      = sumArticles rs + bufferCount new_articles := by
  induction new_articles generalizing rs with
  | nil => simp [bufferCount]
  | cons p rest ih =>
      rw [List.foldl_cons, ih, sumArticles_appendSite]
      simp [bufferCount, Nat.add_assoc]

/-- C1 counterexample input: an empty archive document. -/
def arch0 : Archive := ⟨[], 0, 0, 0⟩

/-- C1 counterexample input: a Live-Buffer content with one article. -/
def buf0 : List (String × SiteNew) :=
  [("https://site.example/", ⟨"Site", [⟨"https://site.example/a1"⟩]⟩)]

/-- C1: merge is NOT idempotent.  Merging the same one-article buffer content
into an empty archive twice leaves the per-source collection holding the same
URL twice — a duplicate Article entry keyed by URL — so the archive differs
from the one produced by a single merge. -/
theorem C1_mergeIdempotence_counterexample :
    append_to_daily_archive (append_to_daily_archive arch0 buf0) buf0
      ≠ append_to_daily_archive arch0 buf0
    ∧ (append_to_daily_archive (append_to_daily_archive arch0 buf0) buf0).results.map
        (fun p => p.2.articles)
      = [[⟨"https://site.example/a1"⟩, ⟨"https://site.example/a1"⟩]] := by
  constructor
  · decide
  · decide

/-- C1 (amended): re-running the merge of the same Live-Buffer content is not
idempotent — the second run appends every buffer article again (the merge does
no per-URL deduplication), so the archive total after merging twice exceeds
the total after merging once by the buffer's article count, and the archives
differ whenever the buffer holds at least one article. -/
theorem C1_mergeIdempotence_amended (arch : Archive)
    (buf : List (String × SiteNew)) :
    (append_to_daily_archive (append_to_daily_archive arch buf) buf).total_articles
      = (append_to_daily_archive arch buf).total_articles + bufferCount buf
    ∧ (bufferCount buf ≠ 0 →
        append_to_daily_archive (append_to_daily_archive arch buf) buf
          ≠ append_to_daily_archive arch buf) := by
  have htot :
      (append_to_daily_archive (append_to_daily_archive arch buf) buf).total_articles
        = (append_to_daily_archive arch buf).total_articles + bufferCount buf := by
    show sumArticles _ = sumArticles _ + bufferCount buf
    rw [sumArticles_fold]
    rfl
  refine ⟨htot, fun hne heq => hne ?_⟩
  have := congrArg Archive.total_articles heq
  rw [htot] at this
  omega

/-- Witness for `C1_mergeIdempotence_amended` at a concrete archive and
buffer: merging twice differs from merging once. -/
theorem C1_mergeIdempotence_amended_witness :
    append_to_daily_archive (append_to_daily_archive arch0 buf0) buf0
      ≠ append_to_daily_archive arch0 buf0 :=
  (C1_mergeIdempotence_amended arch0 buf0).2 (by decide)

end Monitor

/- ==================================================================
   Scraper merge/save flow —
   src/backend/src/scrapers/crawl4ai_scraper.py, the tail of
   run_enhanced_scraper (the `finally:` block, lines 1861-1946) together with
   transfer_live_articles_to_final / clear_live_feed /
   clean_final_results / save_scraped_urls_instantly.
   ================================================================== -/
namespace Scraper

/-- An article dict with the fields the tail of the scraper reads
(`url`, `domain`, `status`, `word_count`, `content`). -/
structure Article where
  url : String
  domain : String
  status : String
  word_count : Nat
  content : String
  deriving DecidableEq, Repr

/-- Observable file-system / control-flow events of one run of the tail, in
program order. -/
inductive Ev where
  /-- `clear_live_feed`: the Live Buffer file is overwritten with the empty
  skeleton (called at the end of a successful
  `transfer_live_articles_to_final`). -/
  | flushBuffer
  /-- `json.dump(cleaned_results, f)` to `News_today_<date>.json`: today's
  Daily Archive file is persisted to disk. -/
  | persistArchive
  /-- the URL ledger is updated (`save_scraped_urls_instantly` /
  `url_tracker.bulk_add_scraped_urls`). -/
  | recordLedger
  /-- the f-string at line 1937 evaluates the undefined name `Fore`; the
  NameError is caught by `except Exception as e:` and re-raised. -/
  | raiseNameError
  deriving DecidableEq, Repr

/-- Python-level errors surfaced by the tail. -/
inductive PyError where
  | nameError
  | ioError
  deriving DecidableEq, Repr

/-- Evaluating `f"\n{Fore.GREEN}..."` at crawl4ai_scraper.py line 1937: the
module's imports are asyncio, json, re, os, random, signal, sys, time, typing,
datetime, crawl4ai, bs4, urllib.parse, unicode_helper and url_tracker — `Fore`
is never imported or assigned, so the name lookup raises NameError. -/
def evalFore : Except PyError Unit := Except.error PyError.nameError

/-- The article filter of `clean_final_results`:
`word_count > 0 and content.strip() and status == 'success'`. -/
def keptByClean (a : Article) : Bool :=
  decide (a.word_count > 0) && a.content.trim != "" && a.status == "success"

/-- The article filter of `save_scraped_urls_instantly` (and of its legacy
fallback): `status == 'success' and word_count > 0 and url`. -/
def trackable (a : Article) : Bool :=
  a.status == "success" && decide (a.word_count > 0) && a.url != ""

/-- Events of `transfer_live_articles_to_final`: when the live feed holds no
articles, nothing happens; otherwise the buffer articles are folded into the
in-memory `final_results` and the function ends by calling `clear_live_feed`
— flushing the Live Buffer file before it returns. -/
def transferTrace (live : List Article) : List Ev :=
  if live.isEmpty then [] else [Ev.flushBuffer]

/-- Events of `save_scraped_urls_instantly`: with a tracker it bulk-adds the
trackable articles; without one the legacy fallback appends them to
`url_scraped.txt` directly.  Either way the ledger is touched iff some
trackable article exists. -/
def saveScrapedUrlsTrace (arts : List Article) : List Ev :=
  if (arts.filter trackable).isEmpty then [] else [Ev.recordLedger]

/-- The tail of `run_enhanced_scraper` (its `finally:` block after the
per-site loop): transfer the live feed into the final results (which flushes
the live file), clean the results, dump them to today's `News_today_` file,
record the URLs in the ledger, then evaluate the undefined name `Fore`, whose
NameError the `except Exception as e:` block re-raises.  `scraped` is the
article content of `all_results`, `live` the live-feed articles, `hasTracker`
whether `self.url_tracker` is available, `dumpOk` whether the `json.dump` of
the daily file succeeds (on failure the except block re-raises the I/O
error).  Returns the event trace and the Python-level outcome. -/
def run_enhanced_scraper_tail (scraped live : List Article)
    (hasTracker dumpOk : Bool) : List Ev × Except PyError (List Article) :=
  let trace1 := transferTrace live
  let cleaned := (scraped ++ live).filter keptByClean
  if dumpOk then
    let traceSave := trace1 ++ [Ev.persistArchive]
        ++ saveScrapedUrlsTrace cleaned
        ++ (if hasTracker then [Ev.recordLedger] else [])
    match evalFore with
    | Except.ok _ => (traceSave, Except.ok cleaned)
    | Except.error e => (traceSave ++ [Ev.raiseNameError], Except.error e)
  else
    (trace1, Except.error PyError.ioError)

/-- True iff no `flushBuffer` event occurs before the first `persistArchive`
event — the ordering C2 asserts. -/
def flushOnlyAfterPersist : List Ev → Bool
  | [] => true
  | Ev.persistArchive :: _ => true
  | Ev.flushBuffer :: _ => false
  | _ :: rest => flushOnlyAfterPersist rest

/-- A concrete successfully scraped article for the counterexamples. -/
def liveArticle : Article :=
  ⟨"https://site.example/a1", "site.example", "success", 120, "body text"⟩

/-- C2: the Live Buffer file IS overwritten with the empty skeleton before
today's Daily Archive file is persisted: with one article in the live feed,
the run's trace flushes the buffer (end of
`transfer_live_articles_to_final`) strictly before the `json.dump` of the
daily file. -/
theorem C2_flushOrdering_counterexample :
    flushOnlyAfterPersist
      (run_enhanced_scraper_tail [] [liveArticle] true true).1 = false := by
  decide

/-- C2 (amended): during the merge step the scraper first folds the live feed
into the in-memory results and immediately flushes the Live Buffer file, and
only then persists today's Daily Archive file; the Dedup Tracker recording
does come after the archive has been persisted. -/
theorem C2_flushOrdering_amended (scraped live : List Article) (hasTracker : Bool)
    (hlive : live ≠ []) :
    (run_enhanced_scraper_tail scraped live hasTracker true).1
      = [Ev.flushBuffer, Ev.persistArchive]
        ++ saveScrapedUrlsTrace ((scraped ++ live).filter keptByClean)
        ++ (if hasTracker then [Ev.recordLedger] else [])
        ++ [Ev.raiseNameError] := by
  have hne : live.isEmpty = false := by
    cases live with
    | nil => exact absurd rfl hlive
    | cons a rest => rfl
  simp [run_enhanced_scraper_tail, transferTrace, hne, evalFore]

/-- Witness for `C2_flushOrdering_amended` at a concrete run with one live
article. -/
theorem C2_flushOrdering_amended_witness :
    (run_enhanced_scraper_tail [] [liveArticle] true true).1
      = [Ev.flushBuffer, Ev.persistArchive]
        ++ saveScrapedUrlsTrace (([] ++ [liveArticle]).filter keptByClean)
        ++ (if true then [Ev.recordLedger] else [])
        ++ [Ev.raiseNameError] :=
  C2_flushOrdering_amended [] [liveArticle] true (by decide)

/-- C10: every run of `run_enhanced_scraper` whose daily-file dump succeeds
evaluates the undefined name `Fore` inside the same try block; the NameError
is caught and re-raised, so the tail ends in the error outcome even though
the daily archive was persisted and (when the tracker is available) the URL
ledger was updated beforehand. -/
theorem C10_foreNameError (scraped live : List Article) (hasTracker : Bool) :
    (run_enhanced_scraper_tail scraped live hasTracker true).2
        = Except.error PyError.nameError
    ∧ Ev.persistArchive ∈ (run_enhanced_scraper_tail scraped live hasTracker true).1
    ∧ (run_enhanced_scraper_tail scraped live hasTracker true).1.getLast?
        = some Ev.raiseNameError
    ∧ (hasTracker = true →
        Ev.recordLedger ∈ (run_enhanced_scraper_tail scraped live hasTracker true).1) := by
  refine ⟨?_, ?_, ?_, ?_⟩
  · simp [run_enhanced_scraper_tail, evalFore]
  · simp [run_enhanced_scraper_tail, evalFore]
  · show ((((transferTrace live ++ [Ev.persistArchive])
        ++ saveScrapedUrlsTrace ((scraped ++ live).filter keptByClean))
        ++ (if hasTracker then [Ev.recordLedger] else []))
        ++ [Ev.raiseNameError]).getLast? = some Ev.raiseNameError
    exact List.getLast?_concat _
  · intro ht
    simp [run_enhanced_scraper_tail, evalFore, ht]

/-- Witness for `C10_foreNameError` at a concrete run. -/
theorem C10_foreNameError_witness :
    (run_enhanced_scraper_tail [] [liveArticle] true true).2
        = Except.error PyError.nameError
    ∧ Ev.recordLedger ∈ (run_enhanced_scraper_tail [] [liveArticle] true true).1 :=
  ⟨(C10_foreNameError [] [liveArticle] true).1,
   (C10_foreNameError [] [liveArticle] true).2.2.2 rfl⟩

end Scraper

/- ==================================================================
   Backup Rotator & Day Rollover —
   src/backend/src/utils/backup_manager.py (class BackupManager),
   src/backend/automation/cleanup_service.py (CleanupService.cleanup_old_files),
   src/backend/src/monitoring/news_monitor_24x7.py
   (NewsMonitor24x7.get_or_create_daily_archive).
   ================================================================== -/
namespace Backup

/-- Seconds per calendar day.  `datetime.fromtimestamp(t).strftime('%Y%m%d')`
is modelled as the day number `t / DAY`: distinct calendar dates map to
distinct day numbers and the code only ever compares these dates for
equality. -/
def DAY : Nat := 86400

/-- File names in the data / backup directories, partitioned exactly as the
backup manager's globs and `get_file_date_from_name` partition them. -/
inductive FName where
  /-- `News_today_<YYYYMMDD>.json` with a valid 8-digit date. -/
  | newsToday (date : Nat)
  /-- matches the glob `News_today_*.json` but carries no parseable date
  (falls back to the modification-date check). -/
  | newsMisc (tag : String)
  /-- `summarized_news_hf.json`. -/
  | summarizedMain
  /-- `summarized_news_hf_<YYYYMMDD>.json` with a valid 8-digit date. -/
  | summarizedDated (date : Nat)
  /-- matches `summarized_news_hf_*.json` but carries no parseable date. -/
  | summarizedMisc (tag : String)
  /-- `cybersecurity_news_live.json`. -/
  | live
  /-- any other file in the directory (never globbed by the manager). -/
  | other (name : String)
  deriving DecidableEq, Repr

/-- A file on disk: name, `st_mtime`, and its payload (for archive documents,
the number of articles; `shutil.copy2` preserves both mtime and payload). -/
structure FSFile where
  name : FName
  mtime : Nat
  content : Nat
  deriving DecidableEq, Repr

/-- `get_file_modification_date`: the calendar date of a file's mtime. -/
def mdate (f : FSFile) : Nat := f.mtime / DAY

/-- `get_file_date_from_name`. -/
def get_file_date_from_name : FName → Option Nat
  | FName.newsToday d => some d
  | FName.summarizedDated d => some d
  | _ => none

/-- membership in the glob `News_today_*.json`. -/
def newsGlob : FName → Bool
  | FName.newsToday _ => true
  | FName.newsMisc _ => true
  | _ => false

/-- membership in the glob `summarized_news_hf_*.json`. -/
def sumDatedGlob : FName → Bool
  | FName.summarizedDated _ => true
  | FName.summarizedMisc _ => true
  | _ => false

/-- membership in the glob `*.json` (used by the cleanup service on the
backup directory). -/
def jsonGlob : FName → Bool
  | FName.other s => s.endsWith ".json"
  | _ => true

/-- `should_backup_file`: compare the date embedded in the name when there is
one, else the modification date, against the manager's `current_date`. -/
def should_backup_file (current : Nat) (f : FSFile) : Bool :=
  match get_file_date_from_name f.name with
  | some d => d != current
  | none => mdate f != current

/-- First file with the given name in a directory listing. -/
def findFile (d : List FSFile) (n : FName) : Option FSFile :=
  d.find? (fun g => g.name == n)

/-- Write (create or overwrite) a file in a directory. -/
def writeFile (d : List FSFile) (f : FSFile) : List FSFile :=
  if d.any (fun g => g.name == f.name) then
    d.map (fun g => if g.name == f.name then f else g)
  else d ++ [f]

/-- `Path.unlink`: remove the file with the given name. -/
def removeFile (d : List FSFile) (n : FName) : List FSFile :=
  d.filter (fun g => g.name != n)

/-- `backup_file_with_date`: skip when a backup with the target name exists
and is at least as recent as the source (`source_time <= target_time`),
otherwise `shutil.copy2` the source over it.  Returns the new backup
directory and the Python return value (False only on an I/O exception, which
the fault-free model excludes). -/
def backup_file_with_date (bd : List FSFile) (src : FSFile) (targetName : FName) :
    List FSFile × Bool :=
  match findFile bd targetName with
  | some tgt =>
      if src.mtime ≤ tgt.mtime then (bd, true)
      else (writeFile bd ⟨targetName, src.mtime, src.content⟩, true)
  | none => (writeFile bd ⟨targetName, src.mtime, src.content⟩, true)

/-- Per-run statistics (`{'backed_up': _, 'skipped': _, 'errors': _}`). -/
structure Stats3 where
  backed_up : Nat
  skipped : Nat
  errors : Nat
  deriving DecidableEq, Repr

/-- The shared shape of the `for file_path in news_files:` loop of
`backup_news_files` and the dated-files loop of `backup_summarized_files`:
back the file up under its own name, then unlink the original; files not due
for backup are only counted as skipped. -/
def rotateLoop (current : Nat) :
    List FSFile → List FSFile × List FSFile × Stats3 → List FSFile × List FSFile × Stats3
  | [], acc => acc
  | f :: rest, (dd, bd, s) =>
      if should_backup_file current f then
        let r := backup_file_with_date bd f f.name
        if r.2 then
          rotateLoop current rest
            (removeFile dd f.name, r.1, ⟨s.backed_up + 1, s.skipped, s.errors⟩)
        else
          rotateLoop current rest (dd, r.1, ⟨s.backed_up, s.skipped, s.errors + 1⟩)
      else
        rotateLoop current rest (dd, bd, ⟨s.backed_up, s.skipped + 1, s.errors⟩)

/-- `backup_news_files`: the glob list is computed once, before the loop. -/
def backup_news_files (current : Nat) (dd bd : List FSFile) :
    List FSFile × List FSFile × Stats3 :=
  rotateLoop current (dd.filter (fun f => newsGlob f.name)) (dd, bd, ⟨0, 0, 0⟩)

/-- The first half of `backup_summarized_files`: the undated
`summarized_news_hf.json`, when present and due, is backed up under a name
carrying its modification date and then unlinked.  (The Python
`file_date == yesterday or file_date != self.current_date` test is implied by
`should_backup_file` having returned True, whose date-from-name is `None` for
this file, so it adds nothing.) -/
def backup_summarized_main (current : Nat) (dd bd : List FSFile) :
    List FSFile × List FSFile × Stats3 :=
  match findFile dd FName.summarizedMain with
  | some m =>
      if should_backup_file current m then
        let r := backup_file_with_date bd m (FName.summarizedDated (mdate m))
        if r.2 then (removeFile dd FName.summarizedMain, r.1, ⟨1, 0, 0⟩)
        else (dd, r.1, ⟨0, 0, 1⟩)
      else (dd, bd, ⟨0, 1, 0⟩)
  | none => (dd, bd, ⟨0, 0, 0⟩)

def backup_summarized_files (current : Nat) (dd bd : List FSFile) :
    List FSFile × List FSFile × Stats3 :=
  let step1 := backup_summarized_main current dd bd
  rotateLoop current (step1.1.filter (fun f => sumDatedGlob f.name)) step1

/-- `cleanup_live_file`: a stale live file is unlinked without backup. -/
def cleanup_live_file (current : Nat) (dd : List FSFile) : List FSFile × Bool :=
  match findFile dd FName.live with
  | some f =>
      if should_backup_file current f then (removeFile dd FName.live, true)
      else (dd, true)
  | none => (dd, true)

/-- Result of `run_daily_backup`. -/
structure RunResult where
  dataDir : List FSFile
  backupDir : List FSFile
  news : Stats3
  summarized : Stats3
  live_cleanup : Bool
  total_backed_up : Nat
  total_errors : Nat
  deriving DecidableEq, Repr

/-- `run_daily_backup`: news files, then summarized files, then the live
file; totals are the sums of the news and summarized counters. -/
def run_daily_backup (current : Nat) (dd bd : List FSFile) : RunResult :=
  let n := backup_news_files current dd bd
  let m := backup_summarized_files current n.1 n.2.1
  let c := cleanup_live_file current m.1
  { dataDir := c.1
    backupDir := m.2.1
    news := n.2.2
    summarized := m.2.2
    live_cleanup := c.2
    total_backed_up := n.2.2.backed_up + m.2.2.backed_up
    total_errors := n.2.2.errors + m.2.2.errors }

/-- `CleanupService.cleanup_old_files` (automation/cleanup_service.py):
removes `*.json` backup files and `News_today_*.json` data files whose
modification time is older than `now - keep_days` days (`KEEP_DAYS`
defaults to 30).  The log-directory part touches a third directory outside
this model.  Returns the new data and backup directories. -/
def cleanup_old_files (keepDays now : Nat) (dd bd : List FSFile) :
    List FSFile × List FSFile :=
  let cutoff := now - keepDays * DAY
  let bd' := bd.filter (fun f => !(jsonGlob f.name && decide (f.mtime < cutoff)))
  let dd' := dd.filter (fun f => !(newsGlob f.name && decide (f.mtime < cutoff)))
  (dd', bd')

/-- The monitor state that `get_or_create_daily_archive` reads and writes.
`managerDate` is `BackupManager.current_date`, assigned once from the clock in
`BackupManager.__init__` (when the monitor constructs it at startup) and never
refreshed; `monitorDate` is `NewsMonitor24x7.current_date`.  The daily-archive
file name is `News_today_<monitorDate>.json`. -/
structure MonitorState where
  dataDir : List FSFile
  backupDir : List FSFile
  managerDate : Nat
  monitorDate : Nat
  hasBackupManager : Bool
  deriving DecidableEq, Repr

/-- `NewsMonitor24x7.get_or_create_daily_archive`, one orchestrator tick of
the rollover logic: on a date change run the backup manager (with ITS frozen
`current_date`), switch to the new archive name, then create the archive file
with the empty skeleton (`total_articles = 0`) if it does not exist.  `today`
is the current calendar date, `now` the clock used as mtime of a file created
now. -/
def get_or_create_daily_archive (today now : Nat) (st : MonitorState) : MonitorState :=
  let st1 :=
    if today != st.monitorDate then
      if st.hasBackupManager then
        let r := run_daily_backup st.managerDate st.dataDir st.backupDir
        { st with dataDir := r.dataDir, backupDir := r.backupDir, monitorDate := today }
      else { st with monitorDate := today }
    else st
  if (findFile st1.dataDir (FName.newsToday st1.monitorDate)).isSome then st1
  else { st1 with
          dataDir := writeFile st1.dataDir ⟨FName.newsToday st1.monitorDate, now, 0⟩ }

theorem backup_file_with_date_ok (bd : List FSFile) (src : FSFile) (n : FName) :
    (backup_file_with_date bd src n).2 = true := by
  unfold backup_file_with_date
  cases findFile bd n with
  | none => rfl
  | some tgt => by_cases h : src.mtime ≤ tgt.mtime <;> simp [h]

theorem rotateLoop_dataDir (current : Nat) (files : List FSFile)
    (dd bd : List FSFile) (s : Stats3) :
    (rotateLoop current files (dd, bd, s)).1
      = dd.filter (fun g =>
          !(files.any (fun f => should_backup_file current f && (g.name == f.name)))) := by
  induction files generalizing dd bd s with
  | nil => simp [rotateLoop]
  | cons f rest ih =>
      cases hsb : should_backup_file current f with
      | true =>
          rw [show rotateLoop current (f :: rest) (dd, bd, s)
                = rotateLoop current rest
                    (removeFile dd f.name, (backup_file_with_date bd f f.name).1,
                     ⟨s.backed_up + 1, s.skipped, s.errors⟩) by
            simp [rotateLoop, hsb, backup_file_with_date_ok]]
          rw [ih]
          rw [removeFile, List.filter_filter]
          apply List.filter_congr
          intro g _
          rw [List.any_cons, hsb]
          cases hgn : (g.name == f.name) with
          | true =>
              cases hany : rest.any
                  (fun f => should_backup_file current f && (g.name == f.name)) with
              | true => simp [bne, hgn, hany]
              | false => simp [bne, hgn, hany]
          | false =>
              cases hany : rest.any
                  (fun f => should_backup_file current f && (g.name == f.name)) with
              | true => simp [bne, hgn, hany]
              | false => simp [bne, hgn, hany]
      | false =>
          rw [show rotateLoop current (f :: rest) (dd, bd, s)
                = rotateLoop current rest (dd, bd, ⟨s.backed_up, s.skipped + 1, s.errors⟩) by
            simp [rotateLoop, hsb]]
          rw [ih]
          apply List.filter_congr
          intro g _
          rw [List.any_cons, hsb]
          simp

theorem rotateLoop_no_stale (current : Nat) (files : List FSFile)
    (dd bd : List FSFile) :
    ∀ s : Stats3, (∀ f ∈ files, should_backup_file current f = false) →
    rotateLoop current files (dd, bd, s)
      = (dd, bd, ⟨s.backed_up, s.skipped + files.length, s.errors⟩) := by
  induction files with
  | nil => intro s _; simp [rotateLoop]
  | cons f rest ih =>
      intro s h
      have hf : should_backup_file current f = false := h f (by simp)
      rw [show rotateLoop current (f :: rest) (dd, bd, s)
            = rotateLoop current rest (dd, bd, ⟨s.backed_up, s.skipped + 1, s.errors⟩) by
        simp [rotateLoop, hf]]
      rw [ih ⟨s.backed_up, s.skipped + 1, s.errors⟩
            (fun g hg => h g (List.mem_cons_of_mem _ hg))]
      have h2 : s.skipped + 1 + rest.length = s.skipped + (rest.length + 1) := by omega
      rw [List.length_cons, h2]

theorem findFile_filter (d : List FSFile) (p : FSFile → Bool) (n : FName)
    (h : ∀ g : FSFile, g.name = n → p g = true) :
    findFile (d.filter p) n = findFile d n := by
  induction d with
  | nil => rfl
  | cons g rest ih =>
      cases hg : (g.name == n) with
      | true =>
          have hpg : p g = true := h g (by simpa using hg)
          rw [show (g :: rest).filter p = g :: rest.filter p from by simp [hpg]]
          show (g :: rest.filter p).find? (fun g => g.name == n)
            = (g :: rest).find? (fun g => g.name == n)
          rw [List.find?_cons, List.find?_cons, hg]
      | false =>
          cases hpg : p g with
          | true =>
              rw [show (g :: rest).filter p = g :: rest.filter p from by simp [hpg]]
              show (g :: rest.filter p).find? (fun g => g.name == n)
                = (g :: rest).find? (fun g => g.name == n)
              rw [List.find?_cons, List.find?_cons, hg]
              exact ih
          | false =>
              rw [show (g :: rest).filter p = rest.filter p from by simp [hpg]]
              show (rest.filter p).find? (fun g => g.name == n)
                = (g :: rest).find? (fun g => g.name == n)
              rw [List.find?_cons, hg]
              exact ih

/-- `cleanup_live_file` either leaves the data directory unchanged or removes
the live file. -/
theorem cleanup_dataDir (current : Nat) (d : List FSFile) :
    (cleanup_live_file current d).1 = d
    ∨ (cleanup_live_file current d).1 = removeFile d FName.live := by
  unfold cleanup_live_file
  split
  · split
    · exact Or.inr rfl
    · exact Or.inl rfl
  · exact Or.inl rfl

theorem mem_of_cleanup (current : Nat) (d : List FSFile) (x : FSFile)
    (hx : x ∈ (cleanup_live_file current d).1) : x ∈ d := by
  rcases cleanup_dataDir current d with h | h <;> rw [h] at hx
  · exact hx
  · exact (List.mem_filter.mp hx).1

theorem cleanup_live_none (current : Nat) (d : List FSFile)
    (h : findFile d FName.live = none) :
    cleanup_live_file current d = (d, true) := by
  unfold cleanup_live_file
  rw [h]

theorem cleanup_live_some_stale (current : Nat) (d : List FSFile) (f : FSFile)
    (h : findFile d FName.live = some f)
    (hsb : should_backup_file current f = true) :
    cleanup_live_file current d = (removeFile d FName.live, true) := by
  unfold cleanup_live_file
  rw [h]
  show (if should_backup_file current f = true
        then (removeFile d FName.live, true) else (d, true)) = _
  rw [if_pos hsb]

theorem cleanup_live_some_fresh (current : Nat) (d : List FSFile) (f : FSFile)
    (h : findFile d FName.live = some f)
    (hsb : should_backup_file current f = false) :
    cleanup_live_file current d = (d, true) := by
  unfold cleanup_live_file
  rw [h]
  show (if should_backup_file current f = true
        then (removeFile d FName.live, true) else (d, true)) = _
  rw [if_neg (by rw [hsb]; exact Bool.false_ne_true)]

theorem backup_summarized_main_none (current : Nat) (dd bd : List FSFile)
    (h : findFile dd FName.summarizedMain = none) :
    backup_summarized_main current dd bd = (dd, bd, ⟨0, 0, 0⟩) := by
  unfold backup_summarized_main
  rw [h]

theorem backup_summarized_main_some_stale (current : Nat) (dd bd : List FSFile)
    (m : FSFile) (h : findFile dd FName.summarizedMain = some m)
    (hsb : should_backup_file current m = true) :
    backup_summarized_main current dd bd
      = (removeFile dd FName.summarizedMain,
         (backup_file_with_date bd m (FName.summarizedDated (mdate m))).1,
         ⟨1, 0, 0⟩) := by
  unfold backup_summarized_main
  rw [h]
  show (if should_backup_file current m = true then
          if (backup_file_with_date bd m (FName.summarizedDated (mdate m))).2 = true then
            (removeFile dd FName.summarizedMain,
             (backup_file_with_date bd m (FName.summarizedDated (mdate m))).1,
             (⟨1, 0, 0⟩ : Stats3))
          else (dd, (backup_file_with_date bd m (FName.summarizedDated (mdate m))).1,
                (⟨0, 0, 1⟩ : Stats3))
        else (dd, bd, (⟨0, 1, 0⟩ : Stats3))) = _
  rw [if_pos hsb, if_pos (backup_file_with_date_ok bd m (FName.summarizedDated (mdate m)))]

theorem backup_summarized_main_some_fresh (current : Nat) (dd bd : List FSFile)
    (m : FSFile) (h : findFile dd FName.summarizedMain = some m)
    (hsb : should_backup_file current m = false) :
    backup_summarized_main current dd bd = (dd, bd, ⟨0, 1, 0⟩) := by
  unfold backup_summarized_main
  rw [h]
  show (if should_backup_file current m = true then
          if (backup_file_with_date bd m (FName.summarizedDated (mdate m))).2 = true then
            (removeFile dd FName.summarizedMain,
             (backup_file_with_date bd m (FName.summarizedDated (mdate m))).1,
             (⟨1, 0, 0⟩ : Stats3))
          else (dd, (backup_file_with_date bd m (FName.summarizedDated (mdate m))).1,
                (⟨0, 0, 1⟩ : Stats3))
        else (dd, bd, (⟨0, 1, 0⟩ : Stats3))) = _
  rw [if_neg (by rw [hsb]; exact Bool.false_ne_true)]

theorem backup_summarized_main_dataDir (current : Nat) (dd bd : List FSFile) :
    (backup_summarized_main current dd bd).1 = dd
    ∨ (backup_summarized_main current dd bd).1 = removeFile dd FName.summarizedMain := by
  rcases hfd : findFile dd FName.summarizedMain with _ | m
  · rw [backup_summarized_main_none current dd bd hfd]
    exact Or.inl rfl
  · cases hsb : should_backup_file current m with
    | true =>
        rw [backup_summarized_main_some_stale current dd bd m hfd hsb]
        exact Or.inr rfl
    | false =>
        rw [backup_summarized_main_some_fresh current dd bd m hfd hsb]
        exact Or.inl rfl

theorem backup_news_dataDir (current : Nat) (dd bd : List FSFile) :
    (backup_news_files current dd bd).1
      = dd.filter (fun g =>
          !((dd.filter (fun f => newsGlob f.name)).any
              (fun f => should_backup_file current f && (g.name == f.name)))) := by
  unfold backup_news_files
  exact rotateLoop_dataDir current _ dd bd ⟨0, 0, 0⟩

theorem backup_summarized_dataDir (current : Nat) (dd bd : List FSFile) :
    (backup_summarized_files current dd bd).1
      = (backup_summarized_main current dd bd).1.filter (fun g =>
          !(((backup_summarized_main current dd bd).1.filter
              (fun f => sumDatedGlob f.name)).any
            (fun f => should_backup_file current f && (g.name == f.name)))) := by
  show (rotateLoop current
      ((backup_summarized_main current dd bd).1.filter (fun f => sumDatedGlob f.name))
      ((backup_summarized_main current dd bd).1,
       (backup_summarized_main current dd bd).2.1,
       (backup_summarized_main current dd bd).2.2)).1 = _
  exact rotateLoop_dataDir current _ _ _ _

theorem findFile_removeFile (d : List FSFile) (n : FName) :
    findFile (removeFile d n) n = none := by
  unfold findFile removeFile
  rw [List.find?_eq_none]
  intro x hx
  have hxf := (List.mem_filter.mp hx).2
  simp only [bne] at hxf
  intro hc
  rw [hc] at hxf
  simp at hxf

/-- The two projections of `run_daily_backup` the idempotence claim is about,
unfolded to the underlying passes. -/
theorem run_daily_backup_dataDir (current : Nat) (dd bd : List FSFile) :
    (run_daily_backup current dd bd).dataDir
      = (cleanup_live_file current
          (backup_summarized_files current
            (backup_news_files current dd bd).1
            (backup_news_files current dd bd).2.1).1).1 := rfl

theorem run_daily_backup_backupDir (current : Nat) (dd bd : List FSFile) :
    (run_daily_backup current dd bd).backupDir
      = (backup_summarized_files current
          (backup_news_files current dd bd).1
          (backup_news_files current dd bd).2.1).2.1 := rfl

theorem bool_eq_true_of_ne_false {b : Bool} (h : ¬ b = false) : b = true := by
  cases b
  · exact absurd rfl h
  · rfl

/-- After one rotation, no news-glob file left in the data directory is still
due for backup. -/
theorem run_no_stale_news (current : Nat) (dd bd : List FSFile) (f : FSFile)
    (hf : f ∈ (run_daily_backup current dd bd).dataDir)
    (hg : newsGlob f.name = true) :
    should_backup_file current f = false := by
  rw [run_daily_backup_dataDir] at hf
  have hf2 := mem_of_cleanup _ _ _ hf
  rw [backup_summarized_dataDir] at hf2
  have hf3 := (List.mem_filter.mp hf2).1
  have hf4 : f ∈ (backup_news_files current dd bd).1 := by
    rcases backup_summarized_main_dataDir current (backup_news_files current dd bd).1
        (backup_news_files current dd bd).2.1 with h | h
    · rw [h] at hf3; exact hf3
    · rw [h] at hf3; exact (List.mem_filter.mp hf3).1
  rw [backup_news_dataDir] at hf4
  obtain ⟨hmem, hcond⟩ := List.mem_filter.mp hf4
  by_contra hne
  have hsb := bool_eq_true_of_ne_false hne
  have hany : (dd.filter (fun f => newsGlob f.name)).any
      (fun f' => should_backup_file current f' && (f.name == f'.name)) = true :=
    List.any_eq_true.mpr ⟨f, List.mem_filter.mpr ⟨hmem, hg⟩, by rw [hsb]; simp⟩
  rw [hany] at hcond
  exact Bool.false_ne_true hcond

/-- After one rotation, no dated summarized file left in the data directory is
still due for backup. -/
theorem run_no_stale_dated (current : Nat) (dd bd : List FSFile) (f : FSFile)
    (hf : f ∈ (run_daily_backup current dd bd).dataDir)
    (hg : sumDatedGlob f.name = true) :
    should_backup_file current f = false := by
  rw [run_daily_backup_dataDir] at hf
  have hf2 := mem_of_cleanup _ _ _ hf
  rw [backup_summarized_dataDir] at hf2
  obtain ⟨hmem, hcond⟩ := List.mem_filter.mp hf2
  by_contra hne
  have hsb := bool_eq_true_of_ne_false hne
  have hany : ((backup_summarized_main current (backup_news_files current dd bd).1
        (backup_news_files current dd bd).2.1).1.filter
          (fun f => sumDatedGlob f.name)).any
      (fun f' => should_backup_file current f' && (f.name == f'.name)) = true :=
    List.any_eq_true.mpr ⟨f, List.mem_filter.mpr ⟨hmem, hg⟩, by rw [hsb]; simp⟩
  rw [hany] at hcond
  exact Bool.false_ne_true hcond

theorem beq_main_of_dated_false (n : FName) (h : sumDatedGlob n = true) :
    (FName.summarizedMain == n) = false := by
  cases n <;> simp_all [sumDatedGlob]

/-- After one rotation, a surviving `summarized_news_hf.json` is not due for
backup. -/
theorem run_main_fresh (current : Nat) (dd bd : List FSFile) (m : FSFile)
    (hm : findFile (run_daily_backup current dd bd).dataDir FName.summarizedMain
      = some m) :
    should_backup_file current m = false := by
  rw [run_daily_backup_dataDir] at hm
  -- step (a): push the lookup through the live-file cleanup
  have ha : findFile (backup_summarized_files current
      (backup_news_files current dd bd).1
      (backup_news_files current dd bd).2.1).1 FName.summarizedMain = some m := by
    rcases cleanup_dataDir current (backup_summarized_files current
        (backup_news_files current dd bd).1
        (backup_news_files current dd bd).2.1).1 with h | h
    · rw [h] at hm; exact hm
    · rw [h] at hm
      rw [removeFile] at hm
      rw [findFile_filter _ _ _ (fun g hgname => by rw [hgname]; rfl)] at hm
      exact hm
  -- step (b): push the lookup through the dated-files loop
  rw [backup_summarized_dataDir] at ha
  rw [findFile_filter _ _ _ ?hkeep] at ha
  case hkeep =>
    intro g hgname
    have : ((backup_summarized_main current (backup_news_files current dd bd).1
        (backup_news_files current dd bd).2.1).1.filter
          (fun f => sumDatedGlob f.name)).any
        (fun f => should_backup_file current f && (g.name == f.name)) = false := by
      rw [List.any_eq_false]
      intro x hx
      have hxg := (List.mem_filter.mp hx).2
      rw [hgname]
      rw [beq_main_of_dated_false x.name hxg]
      simp
    rw [this]
    rfl
  -- step (c): case analysis on the main-file step
  rcases hfd : findFile (backup_news_files current dd bd).1 FName.summarizedMain
      with _ | m₀
  · have hX := backup_summarized_main_none current
        (backup_news_files current dd bd).1 (backup_news_files current dd bd).2.1 hfd
    rw [hX] at ha
    rw [hfd] at ha
    exact absurd ha (by simp)
  · cases hsb : should_backup_file current m₀ with
    | true =>
        have hX := backup_summarized_main_some_stale current
            (backup_news_files current dd bd).1
            (backup_news_files current dd bd).2.1 m₀ hfd hsb
        rw [hX] at ha
        rw [show ((removeFile (backup_news_files current dd bd).1 FName.summarizedMain,
              (backup_file_with_date (backup_news_files current dd bd).2.1 m₀
                (FName.summarizedDated (mdate m₀))).1,
              (⟨1, 0, 0⟩ : Stats3)) :
                List FSFile × List FSFile × Stats3).1
            = removeFile (backup_news_files current dd bd).1 FName.summarizedMain
          from rfl] at ha
        rw [findFile_removeFile] at ha
        exact absurd ha (by simp)
    | false =>
        have hX := backup_summarized_main_some_fresh current
            (backup_news_files current dd bd).1
            (backup_news_files current dd bd).2.1 m₀ hfd hsb
        rw [hX] at ha
        rw [show (((backup_news_files current dd bd).1,
              (backup_news_files current dd bd).2.1, (⟨0, 1, 0⟩ : Stats3)) :
                List FSFile × List FSFile × Stats3).1
            = (backup_news_files current dd bd).1 from rfl] at ha
        rw [hfd] at ha
        have : m = m₀ := by
          have := ha
          simp at this
          exact this.symm
        rw [this]
        exact hsb

/-- After one rotation, a surviving live file is not due for cleanup. -/
theorem run_live_fresh (current : Nat) (dd bd : List FSFile) (m : FSFile)
    (hm : findFile (run_daily_backup current dd bd).dataDir FName.live = some m) :
    should_backup_file current m = false := by
  rw [run_daily_backup_dataDir] at hm
  rcases hfd : findFile (backup_summarized_files current
      (backup_news_files current dd bd).1
      (backup_news_files current dd bd).2.1).1 FName.live with _ | f
  · rw [cleanup_live_none _ _ hfd] at hm
    rw [hfd] at hm
    exact absurd hm (by simp)
  · cases hsb : should_backup_file current f with
    | true =>
        rw [cleanup_live_some_stale _ _ _ hfd hsb] at hm
        rw [show ((removeFile (backup_summarized_files current
              (backup_news_files current dd bd).1
              (backup_news_files current dd bd).2.1).1 FName.live, true) :
                List FSFile × Bool).1
            = removeFile (backup_summarized_files current

              (backup_news_files current dd bd).1
              (backup_news_files current dd bd).2.1).1 FName.live from rfl] at hm
        rw [findFile_removeFile] at hm
        exact absurd hm (by simp)
    | false =>
        rw [cleanup_live_some_fresh _ _ _ hfd hsb] at hm
        rw [hfd] at hm
        have : m = f := by
          have := hm
          simp at this
          exact this.symm
        rw [this]
        exact hsb

/-- With nothing left to rotate, `run_daily_backup` is the identity on both
directories and reports zero backed-up files and zero errors. -/
theorem run_daily_backup_stable (current : Nat) (dd bd : List FSFile)
    (hnews : ∀ f ∈ dd, newsGlob f.name = true → should_backup_file current f = false)
    (hdated : ∀ f ∈ dd, sumDatedGlob f.name = true → should_backup_file current f = false)
    (hmain : ∀ m, findFile dd FName.summarizedMain = some m →
      should_backup_file current m = false)
    (hlive : ∀ m, findFile dd FName.live = some m →
      should_backup_file current m = false) :
    (run_daily_backup current dd bd).dataDir = dd
    ∧ (run_daily_backup current dd bd).backupDir = bd
    ∧ (run_daily_backup current dd bd).total_backed_up = 0
    ∧ (run_daily_backup current dd bd).total_errors = 0 := by
  have hn : backup_news_files current dd bd
      = (dd, bd, ⟨0, 0 + (dd.filter (fun f => newsGlob f.name)).length, 0⟩) := by
    unfold backup_news_files
    exact rotateLoop_no_stale current _ dd bd ⟨0, 0, 0⟩
      (fun f hf => hnews f (List.mem_filter.mp hf).1 (List.mem_filter.mp hf).2)
  have hmain' : ∃ sk : Nat,
      backup_summarized_main current dd bd = (dd, bd, ⟨0, sk, 0⟩) := by
    rcases hfd : findFile dd FName.summarizedMain with _ | m
    · exact ⟨0, backup_summarized_main_none current dd bd hfd⟩
    · exact ⟨1, backup_summarized_main_some_fresh current dd bd m hfd (hmain m hfd)⟩
  obtain ⟨sk, hsm⟩ := hmain'
  have hsum : backup_summarized_files current dd bd
      = (dd, bd, ⟨0, sk + (dd.filter (fun f => sumDatedGlob f.name)).length, 0⟩) := by
    show rotateLoop current
        ((backup_summarized_main current dd bd).1.filter (fun f => sumDatedGlob f.name))
        (backup_summarized_main current dd bd) = _
    rw [hsm]
    exact rotateLoop_no_stale current _ dd bd ⟨0, sk, 0⟩
      (fun f hf => hdated f (List.mem_filter.mp hf).1 (List.mem_filter.mp hf).2)
  have hcl : cleanup_live_file current dd = (dd, true) := by
    rcases hfd : findFile dd FName.live with _ | f
    · exact cleanup_live_none current dd hfd
    · exact cleanup_live_some_fresh current dd f hfd (hlive f hfd)
  refine ⟨?_, ?_, ?_, ?_⟩ <;>
    simp [run_daily_backup, hn, hsum, hcl]

/-- C3 failing input: the day number standing for calendar date D. -/
def dayD : Nat := 3

/-- C3 failing input: the monitor's state at the end of day D, for a monitor
process started on day D — `News_today_D.json` holds 5 articles, the backup
store is empty, and the backup manager was constructed on day D, so its
frozen `current_date` is D. -/
def tickState : MonitorState :=
  { dataDir := [⟨FName.newsToday dayD, dayD * DAY + 3600, 5⟩]
    backupDir := []
    managerDate := dayD
    monitorDate := dayD
    hasBackupManager := true }

/-- C3: the rollover tick from D to D+1 produces ZERO backup artifacts for
day D when the monitor (and with it the BackupManager) was started on day D:
`BackupManager.current_date` was frozen at construction time, so
`should_backup_file` still regards day-D files as "today's" and skips them.
The tick does create the new empty archive for D+1, and day D's archive is
left behind in the data directory. -/
theorem C3_dayRollover_codeBug :
    (get_or_create_daily_archive (dayD + 1) ((dayD + 1) * DAY + 60) tickState).backupDir
      = []
    ∧ (⟨FName.newsToday dayD, dayD * DAY + 3600, 5⟩ : FSFile)
        ∈ (get_or_create_daily_archive (dayD + 1) ((dayD + 1) * DAY + 60)
            tickState).dataDir
    ∧ findFile (get_or_create_daily_archive (dayD + 1) ((dayD + 1) * DAY + 60)
          tickState).dataDir (FName.newsToday (dayD + 1))
        = some ⟨FName.newsToday (dayD + 1), (dayD + 1) * DAY + 60, 0⟩ := by
  refine ⟨?_, ?_, ?_⟩ <;> decide

/-- C3, the behaviour the spec intended, for contrast: when the Backup
Rotator's frozen date differs from D (the manager was constructed on an
earlier day), the same tick does move day D's archive into the backup store
as the only artifact representing D and creates the new empty archive for
D+1. -/
theorem C3_dayRollover_managerOlder :
    (get_or_create_daily_archive (dayD + 1) ((dayD + 1) * DAY + 60)
        { tickState with managerDate := dayD - 1 }).backupDir
      = [⟨FName.newsToday dayD, dayD * DAY + 3600, 5⟩]
    ∧ findFile (get_or_create_daily_archive (dayD + 1) ((dayD + 1) * DAY + 60)
          { tickState with managerDate := dayD - 1 }).dataDir
        (FName.newsToday (dayD + 1))
        = some ⟨FName.newsToday (dayD + 1), (dayD + 1) * DAY + 60, 0⟩ := by
  refine ⟨?_, ?_⟩ <;> decide

/-- C6 counterexample input: a backup of day 1's archive, 99 days stale by
the time the rotation runs with `current_date = 100`. -/
def staleBackup : FSFile := ⟨FName.newsToday 1, DAY, 7⟩

/-- C6: `run_daily_backup` performs NO retention pruning — a backup file
representing a date far beyond any retention horizon (here 99 days old, with
a 30-day horizon and "now" = day 100) survives a run of the rotation
untouched. -/
theorem C6_retention_counterexample :
    (run_daily_backup 100 [] [staleBackup]).backupDir = [staleBackup]
    ∧ staleBackup.mtime < 100 * DAY - 30 * DAY := by
  refine ⟨?_, ?_⟩ <;> decide

/-- C6 (amended): retention pruning is not part of the rotation; it is the
separate cleanup service's `cleanup_old_files` that deletes stale backups —
after it completes, no `*.json` file older than the `keep_days` horizon
remains in the backup store. -/
theorem C6_retention_amended (keepDays now : Nat) (dd bd : List FSFile) (f : FSFile)
    (hf : f ∈ (cleanup_old_files keepDays now dd bd).2)
    (hjson : jsonGlob f.name = true) :
    ¬ (f.mtime < now - keepDays * DAY) := by
  intro hlt
  have hcond := (List.mem_filter.mp hf).2
  rw [hjson] at hcond
  rw [show decide (f.mtime < now - keepDays * DAY) = true by simpa using hlt] at hcond
  simp at hcond

/-- Witness for `C6_retention_amended`: a fresh backup file (mtime = "now")
survives the cleanup, and the theorem applies to it. -/
theorem C6_retention_amended_witness :
    ¬ ((⟨FName.newsToday 5, 8640000, 1⟩ : FSFile).mtime < 8640000 - 30 * DAY) :=
  C6_retention_amended 30 8640000 [] [⟨FName.newsToday 5, 8640000, 1⟩]
    ⟨FName.newsToday 5, 8640000, 1⟩ (by decide) (by decide)

/-- C7: running the rotation a second time on the directories produced by a
first run (no new stale files in between) leaves both directories unchanged
and reports zero backed-up files and zero errors. -/
theorem C7_rotationIdempotent (current : Nat) (dd bd : List FSFile) :
    (run_daily_backup current (run_daily_backup current dd bd).dataDir
        (run_daily_backup current dd bd).backupDir).dataDir
      = (run_daily_backup current dd bd).dataDir
    ∧ (run_daily_backup current (run_daily_backup current dd bd).dataDir
        (run_daily_backup current dd bd).backupDir).backupDir
      = (run_daily_backup current dd bd).backupDir
    ∧ (run_daily_backup current (run_daily_backup current dd bd).dataDir
        (run_daily_backup current dd bd).backupDir).total_backed_up = 0
    ∧ (run_daily_backup current (run_daily_backup current dd bd).dataDir
        (run_daily_backup current dd bd).backupDir).total_errors = 0 :=
  run_daily_backup_stable current _ _
    (fun f hf hg => run_no_stale_news current dd bd f hf hg)
    (fun f hf hg => run_no_stale_dated current dd bd f hf hg)
    (fun m hm => run_main_fresh current dd bd m hm)
    (fun m hm => run_live_fresh current dd bd m hm)

end Backup

/- ==================================================================
   Read cache — src/backend/api/cybersecurity_fastapi.py,
   get_fresh_news_data / invalidate_distributed_cache.
   ================================================================== -/
namespace Cache

/-- The decoded article payload of `summarized_news_hf.json`.  Its contents
are opaque to the cache logic — only emptiness (Python truthiness of
`fresh_data`) is ever tested — so articles are represented by opaque ids. -/
abbrev Data := List Nat

/-- The module-level `news_data_cache` dict (`data`, `last_modified`);
`file_path` is write-only and omitted. -/
structure LocalCache where
  data : Option Data
  last_modified : Nat
  deriving DecidableEq, Repr

/-- The two Redis keys, `cyberx:news_data` and `cyberx:news_mtime`. -/
structure RedisStore where
  newsData : Option Data
  newsMtime : Option Nat
  deriving DecidableEq, Repr

/-- Fault injection for the shared tier: `ok = false` means that Redis
operation raises when attempted (and the surrounding `except` catches it). -/
structure RedisOracle where
  getMtimeOk : Bool
  getDataOk : Bool
  setDataOk : Bool
  setMtimeOk : Bool
  delDataOk : Bool
  delMtimeOk : Bool
  deriving DecidableEq, Repr

structure CacheState where
  /-- `summarized_news_hf.json`: its mtime and decoded content; `none` when
  the file does not exist. -/
  disk : Option (Nat × Data)
  /-- `REDIS_AVAILABLE`. -/
  redisAvailable : Bool
  redis : RedisStore
  localCache : LocalCache
  deriving DecidableEq, Repr

/-- The `if REDIS_AVAILABLE: try: ...` block of `get_fresh_news_data`:
`some d` means the block returned `d` from the shared tier; `none` means it
fell through (tier unavailable, key missing, stale mtime, or an operation
raised and was caught).  Note `if cached_mtime and float(cached_mtime) >=
current_modified:` — a present mtime is always truthy (it is a non-empty
string), so only presence and the ≥ comparison matter; and `if cached_data:`
— the cached JSON text of a non-empty list is truthy. -/
def redisReadResult (o : RedisOracle) (st : CacheState) (currentModified : Nat) :
    Option Data :=
  if st.redisAvailable then
    if o.getMtimeOk then
      match st.redis.newsMtime with
      | some m =>
          if m ≥ currentModified then
            if o.getDataOk then
              match st.redis.newsData with
              | some d => some d
              | none => none
            else none
          else none
      | none => none
    else none
  else none

/-- The tail of `get_fresh_news_data` once both cache tiers have missed:
load the file, update the local cache, then try to `setex` both Redis keys
(data first, then mtime, inside one `try`; `if REDIS_AVAILABLE and
fresh_data:` guards the write) and return the fresh data. -/
def loadFresh (o : RedisOracle) (st : CacheState) (currentModified : Nat)
    (fileData : Data) : Data × CacheState :=
  let lc : LocalCache := ⟨some fileData, currentModified⟩
  let rd : RedisStore :=
    if st.redisAvailable && !fileData.isEmpty then
      if o.setDataOk then
        if o.setMtimeOk then ⟨some fileData, some currentModified⟩
        else ⟨some fileData, st.redis.newsMtime⟩
      else st.redis
    else st.redis
  (fileData, { st with localCache := lc, redis := rd })

/-- `get_fresh_news_data`: missing file → `[]`; else shared tier, then the
local cache (`data is not None and last_modified >= current_modified`), then
a fresh disk read. -/
def get_fresh_news_data (o : RedisOracle) (st : CacheState) : Data × CacheState :=
  match st.disk with
  | none => ([], st)
  | some (currentModified, fileData) =>
      match redisReadResult o st currentModified with
      | some d => (d, st)
      | none =>
          match st.localCache.data with
          | some d =>
              if st.localCache.last_modified ≥ currentModified then (d, st)
              else loadFresh o st currentModified fileData
          | none => loadFresh o st currentModified fileData

/-- `invalidate_distributed_cache`: zero the local tier's recorded mtime and
drop its data, then (when Redis is available) delete the data key and the
mtime key inside one `try` — if the first delete raises, the second is never
attempted. -/
def invalidate_distributed_cache (o : RedisOracle) (st : CacheState) : CacheState :=
  let st1 := { st with localCache := ⟨none, 0⟩ }
  if st1.redisAvailable then
    if o.delDataOk then
      let st2 := { st1 with redis := { st1.redis with newsData := none } }
      if o.delMtimeOk then { st2 with redis := { st2.redis with newsMtime := none } }
      else st2
    else st1
  else st1

/-- What `get_fresh_news_data` computes when the shared tier contributes
nothing: the local tier when valid, else the file content, else `[]`. -/
def localDiskRead (st : CacheState) : Data :=
  match st.disk with
  | none => []
  | some (currentModified, fileData) =>
      match st.localCache.data with
      | some d =>
          if st.localCache.last_modified ≥ currentModified then d else fileData
      | none => fileData

theorem loadFresh_fst (o : RedisOracle) (st : CacheState) (c : Nat) (fd : Data) :
    (loadFresh o st c fd).1 = fd := rfl

theorem loadFresh_localCache (o : RedisOracle) (st : CacheState) (c : Nat) (fd : Data) :
    (loadFresh o st c fd).2.localCache = ⟨some fd, c⟩ := rfl

theorem redisReadResult_none_of_fail (o : RedisOracle) (st : CacheState) (c : Nat)
    (h : o.getMtimeOk = false ∨ o.getDataOk = false) :
    redisReadResult o st c = none := by
  unfold redisReadResult
  rcases h with h | h <;>
    ((repeat' first | rfl | split); simp_all)

theorem redisReadResult_noMtime (o : RedisOracle) (st : CacheState) (c : Nat)
    (h : st.redis.newsMtime = none) : redisReadResult o st c = none := by
  unfold redisReadResult
  (repeat' first | rfl | split)
  all_goals simp_all

theorem redisReadResult_cases (o : RedisOracle) (st : CacheState) (c : Nat) :
    redisReadResult o st c = none
    ∨ redisReadResult o st c = st.redis.newsData := by
  unfold redisReadResult
  repeat' first | exact Or.inl rfl | split
  rename_i d hd
  exact Or.inr (by rw [hd])

theorem get_fresh_disk_none (o : RedisOracle) (st : CacheState)
    (h : st.disk = none) : get_fresh_news_data o st = ([], st) := by
  unfold get_fresh_news_data
  rw [h]

theorem get_fresh_redis_some (o : RedisOracle) (st : CacheState) (c : Nat)
    (fd : Data) (d : Data) (hd : st.disk = some (c, fd))
    (hr : redisReadResult o st c = some d) :
    get_fresh_news_data o st = (d, st) := by
  unfold get_fresh_news_data
  rw [hd]
  show (match redisReadResult o st c with
        | some d => (d, st)
        | none =>
            match st.localCache.data with
            | some d =>
                if st.localCache.last_modified ≥ c then (d, st)
                else loadFresh o st c fd
            | none => loadFresh o st c fd) = (d, st)
  rw [hr]

theorem get_fresh_local_hit (o : RedisOracle) (st : CacheState) (c : Nat)
    (fd : Data) (d : Data) (hd : st.disk = some (c, fd))
    (hr : redisReadResult o st c = none)
    (hl : st.localCache.data = some d)
    (hge : st.localCache.last_modified ≥ c) :
    get_fresh_news_data o st = (d, st) := by
  unfold get_fresh_news_data
  rw [hd]
  show (match redisReadResult o st c with
        | some d => (d, st)
        | none =>
            match st.localCache.data with
            | some d =>
                if st.localCache.last_modified ≥ c then (d, st)
                else loadFresh o st c fd
            | none => loadFresh o st c fd) = (d, st)
  rw [hr]
  show (match st.localCache.data with
        | some d =>
            if st.localCache.last_modified ≥ c then (d, st)
            else loadFresh o st c fd
        | none => loadFresh o st c fd) = (d, st)
  rw [hl]
  show (if st.localCache.last_modified ≥ c then (d, st)
        else loadFresh o st c fd) = (d, st)
  rw [if_pos hge]

theorem get_fresh_local_stale (o : RedisOracle) (st : CacheState) (c : Nat)
    (fd : Data) (d : Data) (hd : st.disk = some (c, fd))
    (hr : redisReadResult o st c = none)
    (hl : st.localCache.data = some d)
    (hge : ¬ st.localCache.last_modified ≥ c) :
    get_fresh_news_data o st = loadFresh o st c fd := by
  unfold get_fresh_news_data
  rw [hd]
  show (match redisReadResult o st c with
        | some d => (d, st)
        | none =>
            match st.localCache.data with
            | some d =>
                if st.localCache.last_modified ≥ c then (d, st)
                else loadFresh o st c fd
            | none => loadFresh o st c fd) = loadFresh o st c fd
  rw [hr]
  show (match st.localCache.data with
        | some d =>
            if st.localCache.last_modified ≥ c then (d, st)
            else loadFresh o st c fd
        | none => loadFresh o st c fd) = loadFresh o st c fd
  rw [hl]
  show (if st.localCache.last_modified ≥ c then (d, st)
        else loadFresh o st c fd) = loadFresh o st c fd
  rw [if_neg hge]

theorem get_fresh_local_none (o : RedisOracle) (st : CacheState) (c : Nat)
    (fd : Data) (hd : st.disk = some (c, fd))
    (hr : redisReadResult o st c = none)
    (hl : st.localCache.data = none) :
    get_fresh_news_data o st = loadFresh o st c fd := by
  unfold get_fresh_news_data
  rw [hd]
  show (match redisReadResult o st c with
        | some d => (d, st)
        | none =>
            match st.localCache.data with
            | some d =>
                if st.localCache.last_modified ≥ c then (d, st)
                else loadFresh o st c fd
            | none => loadFresh o st c fd) = loadFresh o st c fd
  rw [hr]
  show (match st.localCache.data with
        | some d =>
            if st.localCache.last_modified ≥ c then (d, st)
            else loadFresh o st c fd
        | none => loadFresh o st c fd) = loadFresh o st c fd
  rw [hl]

theorem localDiskRead_disk_none (st : CacheState) (h : st.disk = none) :
    localDiskRead st = [] := by
  unfold localDiskRead
  rw [h]

theorem localDiskRead_hit (st : CacheState) (c : Nat) (fd : Data) (d : Data)
    (hd : st.disk = some (c, fd)) (hl : st.localCache.data = some d)
    (hge : st.localCache.last_modified ≥ c) : localDiskRead st = d := by
  unfold localDiskRead
  rw [hd]
  show (match st.localCache.data with
        | some d =>
            if st.localCache.last_modified ≥ c then d else fd
        | none => fd) = d
  rw [hl]
  show (if st.localCache.last_modified ≥ c then d else fd) = d
  rw [if_pos hge]

theorem localDiskRead_stale (st : CacheState) (c : Nat) (fd : Data) (d : Data)
    (hd : st.disk = some (c, fd)) (hl : st.localCache.data = some d)
    (hge : ¬ st.localCache.last_modified ≥ c) : localDiskRead st = fd := by
  unfold localDiskRead
  rw [hd]
  show (match st.localCache.data with
        | some d =>
            if st.localCache.last_modified ≥ c then d else fd
        | none => fd) = fd
  rw [hl]
  show (if st.localCache.last_modified ≥ c then d else fd) = fd
  rw [if_neg hge]

theorem localDiskRead_local_none (st : CacheState) (c : Nat) (fd : Data)
    (hd : st.disk = some (c, fd)) (hl : st.localCache.data = none) :
    localDiskRead st = fd := by
  unfold localDiskRead
  rw [hd]
  show (match st.localCache.data with
        | some d =>
            if st.localCache.last_modified ≥ c then d else fd
        | none => fd) = fd
  rw [hl]

theorem get_fresh_of_redis_none (o : RedisOracle) (st : CacheState)
    (h : ∀ c, redisReadResult o st c = none) :
    (get_fresh_news_data o st).1 = localDiskRead st := by
  rcases hd : st.disk with _ | ⟨c, fd⟩
  · rw [get_fresh_disk_none o st hd, localDiskRead_disk_none st hd]
  · rcases hl : st.localCache.data with _ | d
    · rw [get_fresh_local_none o st c fd hd (h c) hl, loadFresh_fst,
          localDiskRead_local_none st c fd hd hl]
    · by_cases hge : st.localCache.last_modified ≥ c
      · rw [get_fresh_local_hit o st c fd d hd (h c) hl hge,
            localDiskRead_hit st c fd d hd hl hge]
      · rw [get_fresh_local_stale o st c fd d hd (h c) hl hge, loadFresh_fst,
            localDiskRead_stale st c fd d hd hl hge]

/-- C9: shared-cache failures never surface.  If either Redis read operation
raises during `get_fresh_news_data`, the call still returns the article data
from the in-process cache or a direct disk read; and in every case (any
combination of Redis faults) the returned value is either that fallback value
or the value cached in the shared tier — a cache error is never propagated to
the caller. -/
theorem C9_cacheFailureFallback (st : CacheState) (o : RedisOracle) :
    ((o.getMtimeOk = false ∨ o.getDataOk = false) →
      (get_fresh_news_data o st).1 = localDiskRead st)
    ∧ ((get_fresh_news_data o st).1 = localDiskRead st
        ∨ st.redis.newsData = some (get_fresh_news_data o st).1) := by
  constructor
  · intro h
    exact get_fresh_of_redis_none o st
      (fun c => redisReadResult_none_of_fail o st c h)
  · rcases hd : st.disk with _ | ⟨c, fd⟩
    · exact Or.inl (by
        rw [get_fresh_disk_none o st hd, localDiskRead_disk_none st hd])
    · rcases redisReadResult_cases o st c with hr | hr
      · left
        rcases hl : st.localCache.data with _ | d
        · rw [get_fresh_local_none o st c fd hd hr hl, loadFresh_fst,
              localDiskRead_local_none st c fd hd hl]
        · by_cases hge : st.localCache.last_modified ≥ c
          · rw [get_fresh_local_hit o st c fd d hd hr hl hge,
                localDiskRead_hit st c fd d hd hl hge]
          · rw [get_fresh_local_stale o st c fd d hd hr hl hge, loadFresh_fst,
                localDiskRead_stale st c fd d hd hl hge]
      · rcases hnd : st.redis.newsData with _ | d
        · rw [hnd] at hr
          left
          rcases hl : st.localCache.data with _ | d
          · rw [get_fresh_local_none o st c fd hd hr hl, loadFresh_fst,
                localDiskRead_local_none st c fd hd hl]
          · by_cases hge : st.localCache.last_modified ≥ c
            · rw [get_fresh_local_hit o st c fd d hd hr hl hge,
                  localDiskRead_hit st c fd d hd hl hge]
            · rw [get_fresh_local_stale o st c fd d hd hr hl hge, loadFresh_fst,
                  localDiskRead_stale st c fd d hd hl hge]
        · right
          rw [hnd] at hr
          rw [get_fresh_redis_some o st c fd d hd hr]

/-- Witness for `C9_cacheFailureFallback`: with the shared tier raising on
every read, a populated local cache still serves the data. -/
theorem C9_cacheFailureFallback_witness :
    (get_fresh_news_data ⟨false, false, true, true, true, true⟩
        ⟨some (10, [1, 2]), true, ⟨some [9], some 10⟩, ⟨some [1, 2], 10⟩⟩).1
      = localDiskRead
          ⟨some (10, [1, 2]), true, ⟨some [9], some 10⟩, ⟨some [1, 2], 10⟩⟩ :=
  (C9_cacheFailureFallback
      ⟨some (10, [1, 2]), true, ⟨some [9], some 10⟩, ⟨some [1, 2], 10⟩⟩
      ⟨false, false, true, true, true, true⟩).1 (Or.inl rfl)

theorem invalidate_char (o : RedisOracle) (st : CacheState)
    (h1 : o.delDataOk = true) (h2 : o.delMtimeOk = true) :
    invalidate_distributed_cache o st
      = { st with
          localCache := ⟨none, 0⟩,
          redis := if st.redisAvailable then ⟨none, none⟩ else st.redis } := by
  unfold invalidate_distributed_cache
  cases hra : st.redisAvailable with
  | false => rfl
  | true =>
      rw [h1, h2]
      rfl

/-- C8: after an explicit invalidation whose Redis deletes succeed, the very
next read (whatever its own Redis faults) bypasses both tiers and loads the
data straight from the archive file on disk, repopulating the in-process tier
from the file. -/
theorem C8_invalidationForcesDiskRead (st : CacheState) (o o2 : RedisOracle)
    (c : Nat) (fd : Data) (hdisk : st.disk = some (c, fd))
    (hdel1 : o.delDataOk = true) (hdel2 : o.delMtimeOk = true) :
    (get_fresh_news_data o2 (invalidate_distributed_cache o st)).1 = fd
    ∧ (get_fresh_news_data o2 (invalidate_distributed_cache o st)).2.localCache
        = ⟨some fd, c⟩ := by
  rw [invalidate_char o st hdel1 hdel2]
  set st1 : CacheState :=
    { st with
      localCache := (⟨none, 0⟩ : LocalCache),
      redis := if st.redisAvailable then (⟨none, none⟩ : RedisStore) else st.redis }
    with hst1
  have hnone : redisReadResult o2 st1 c = none := by
    cases hra : st.redisAvailable with
    | false =>
        unfold redisReadResult
        rw [show st1.redisAvailable = st.redisAvailable from rfl, hra]
        rfl
    | true =>
        apply redisReadResult_noMtime
        show ({ st with
          localCache := (⟨none, 0⟩ : LocalCache),
          redis := if st.redisAvailable then (⟨none, none⟩ : RedisStore)
            else st.redis } : CacheState).redis.newsMtime = none
        rw [hra]
        rfl
  have hd1 : st1.disk = some (c, fd) := hdisk
  have hl1 : st1.localCache.data = none := rfl
  rw [get_fresh_local_none o2 st1 c fd hd1 hnone hl1, loadFresh_fst,
      loadFresh_localCache]
  exact ⟨rfl, rfl⟩

/-- Witness for `C8_invalidationForcesDiskRead`: a concrete state with both
tiers populated with stale data; after invalidation the read returns the disk
content. -/
theorem C8_invalidationForcesDiskRead_witness :
    (get_fresh_news_data ⟨true, true, true, true, true, true⟩
        (invalidate_distributed_cache ⟨true, true, true, true, true, true⟩
          ⟨some (10, [7, 8]), true, ⟨some [1], some 99⟩, ⟨some [2], 99⟩⟩)).1
      = [7, 8] :=
  (C8_invalidationForcesDiskRead
      ⟨some (10, [7, 8]), true, ⟨some [1], some 99⟩, ⟨some [2], 99⟩⟩
      ⟨true, true, true, true, true, true⟩ ⟨true, true, true, true, true, true⟩
      10 [7, 8] rfl rfl rfl).1

end Cache
end CyberX
